import Mathlib

/-!
Verification of the core logic of the `earthquake` dashboard: the USGS
query builder, the snapshot aggregators (summary statistics, magnitude and
depth distributions, the magnitude histogram, hourly activity buckets,
recency sorting), and the fetch/refresh flow.

Numbers that are floating point in the source are modelled as exact
rationals (`ℚ`); epoch-millisecond timestamps as `Int`.  A JavaScript
field that may be absent or numeric is modelled as `Option ℚ`, with JS
truthiness rendered as "present and nonzero".
-/

namespace Earthquake

/-- One feed record, from the GeoJSON shape
`{ id, geometry.coordinates: [lon, lat, depth], properties: { mag, place, time, felt } }`.
`mag` and `depth` may be null in the feed. -/
structure SeismicEvent where
  id : String
  mag : Option ℚ
  depth : Option ℚ
  latitude : ℚ
  longitude : ℚ
  place : String
  time : Int
  felt : Option Nat
deriving DecidableEq

/-! ## Query Builder (`buildUSGSQuery`, src/unnamed/part_001 lines 27-82) -/

/-- The filter configuration consumed by `buildUSGSQuery`.  Every numeric
field may be absent (JS `undefined`), hence `Option ℚ`. -/
structure FilterOptions where
  timeRange : String
  minMagnitude : Option ℚ := none
  maxMagnitude : Option ℚ := none
  minDepth : Option ℚ := none
  maxDepth : Option ℚ := none
  latitude : Option ℚ := none
  longitude : Option ℚ := none
  radius : Option ℚ := none
  limit : Option ℚ := none
deriving DecidableEq

/-- JS truthiness of a possibly-absent numeric field: absent (`undefined`)
and `0` are falsy, every other number is truthy. -/
def truthy : Option ℚ → Bool
  | none => false
  | some v => v != 0

/-- One query parameter appended to the `URLSearchParams`. -/
inductive QueryParam where
  | format
  | limitParam (v : ℚ)
  | starttime (t : Int)
  | endtime (t : Int)
  | minmagnitude (v : ℚ)
  | maxmagnitude (v : ℚ)
  | mindepth (v : ℚ)
  | maxdepth (v : ℚ)
  | latitude (v : ℚ)
  | longitude (v : ℚ)
  | maxradiuskm (v : ℚ)
  | orderby
deriving DecidableEq

/-- The `switch (filterOptions.timeRange)` of `buildUSGSQuery`: the window
width in milliseconds subtracted from `now`, defaulting to 24 hours on any
unrecognized value. -/
def durationFor (timeRange : String) : Int :=
  if timeRange = "hour" then 60 * 60 * 1000
  else if timeRange = "day" then 24 * 60 * 60 * 1000
  else if timeRange = "week" then 7 * 24 * 60 * 60 * 1000
  else if timeRange = "month" then 30 * 24 * 60 * 60 * 1000
  else 24 * 60 * 60 * 1000

/-- Translation of `buildUSGSQuery` (src/unnamed/part_001 lines 27-82): the
ordered list of query parameters.  `format` and `limit` (defaulted through
`filterOptions.limit || 100`) come first, then `starttime`/`endtime`, then
each optional parameter guarded by a JS truthiness check, then `orderby`. -/
def buildUSGSQuery (o : FilterOptions) (now : Int) : List QueryParam :=
  [QueryParam.format,
   QueryParam.limitParam (if truthy o.limit then o.limit.getD 0 else 100),
   QueryParam.starttime (now - durationFor o.timeRange),
   QueryParam.endtime now]
  ++ (if truthy o.minMagnitude then [QueryParam.minmagnitude (o.minMagnitude.getD 0)] else [])
  ++ (if truthy o.maxMagnitude then [QueryParam.maxmagnitude (o.maxMagnitude.getD 0)] else [])
  ++ (if truthy o.minDepth then [QueryParam.mindepth (o.minDepth.getD 0)] else [])
  ++ (if truthy o.maxDepth then [QueryParam.maxdepth (o.maxDepth.getD 0)] else [])
  ++ (if truthy o.latitude then [QueryParam.latitude (o.latitude.getD 0)] else [])
  ++ (if truthy o.longitude then [QueryParam.longitude (o.longitude.getD 0)] else [])
  ++ (if truthy o.radius then [QueryParam.maxradiuskm (o.radius.getD 0)] else [])
  ++ [QueryParam.orderby]

/-- The USGS parameter name a `QueryParam` is appended under. -/
def QueryParam.tag : QueryParam → String
  | .format => "format"
  | .limitParam _ => "limit"
  | .starttime _ => "starttime"
  | .endtime _ => "endtime"
  | .minmagnitude _ => "minmagnitude"
  | .maxmagnitude _ => "maxmagnitude"
  | .mindepth _ => "mindepth"
  | .maxdepth _ => "maxdepth"
  | .latitude _ => "latitude"
  | .longitude _ => "longitude"
  | .maxradiuskm _ => "maxradiuskm"
  | .orderby => "orderby"

/-- Whether the query emits a parameter under the given USGS name. -/
def emits (q : List QueryParam) (t : String) : Bool :=
  q.any fun p => p.tag == t

/-- The value of the first `starttime` parameter of a query, if any. -/
def startOf (q : List QueryParam) : Option Int :=
  q.findSome? fun p => match p with | .starttime t => some t | _ => none

/-- The value of the first `endtime` parameter of a query, if any. -/
def endOf (q : List QueryParam) : Option Int :=
  q.findSome? fun p => match p with | .endtime t => some t | _ => none

/-- The value of the first `limit` parameter of a query, if any. -/
def limitOf (q : List QueryParam) : Option ℚ :=
  q.findSome? fun p => match p with | .limitParam v => some v | _ => none

/-! ## Dashboard aggregators (src/components/Dashboard.js) -/

/-- The non-null magnitudes of a snapshot:
`earthquakeData.map(eq => eq.properties.mag).filter(mag => mag != null)`. -/
def magsOf (snapshot : List SeismicEvent) : List ℚ :=
  (snapshot.map SeismicEvent.mag).reduceOption

/-- The non-null depths of a snapshot:
`earthquakeData.map(eq => eq.geometry.coordinates[2]).filter(depth => depth != null)`. -/
def depthsOf (snapshot : List SeismicEvent) : List ℚ :=
  (snapshot.map SeismicEvent.depth).reduceOption

/-- Stable sort descending by `properties.time`, modelling
`earthquakeData.sort((a, b) => b.properties.time - a.properties.time)`
(`Array.prototype.sort` is a stable comparison sort; an element is placed
before another exactly when the comparator is non-positive, i.e. when its
time is at least the other's). -/
def sortByTimeDesc (l : List SeismicEvent) : List SeismicEvent :=
  l.insertionSort fun a b => b.time ≤ a.time

/-- Translation of the `recentEarthquakes` computation
(src/components/Dashboard.js lines 71-73):
`earthquakeData.sort((a, b) => b.properties.time - a.properties.time).slice(0, 10)`.
JS `sort` reorders the array in place and returns that same array, so the
result is a pair: the value of the expression (`fst`) and the state of the
shared `earthquakeData` array after the call (`snd`). -/
def recentEarthquakes (snapshot : List SeismicEvent) :
    List SeismicEvent × List SeismicEvent :=
  let sorted := sortByTimeDesc snapshot
  (sorted.take 10, sorted)

/-- `Math.max` over a list: `none` encodes the JS result `-Infinity` of
`Math.max()` on an empty argument list. -/
def maxQ (l : List ℚ) : Option ℚ :=
  l.foldr (fun x acc => match acc with | none => some x | some y => some (max x y)) none

/-- Result record of `getStats`.  `largest` and `averageMagnitude` are
`Option ℚ`: `none` encodes the JS values `-Infinity` (`Math.max()` of no
arguments) and `NaN` (`0/0`) produced when the snapshot is non-empty but
has no non-null magnitude.  The `.toFixed(1)` presentation-layer formatting
of the source is not modelled (spec §8 assigns rounding to the
presentation layer); it maps `-Infinity` and `NaN` to the strings
`"-Infinity"` and `"NaN"`, never to `0`. -/
structure Stats where
  total : Nat
  largest : Option ℚ
  averageMagnitude : Option ℚ
  last24Hours : Nat
deriving DecidableEq

/-- Translation of `getStats` (src/components/Dashboard.js lines 34-59). -/
def getStats (snapshot : List SeismicEvent) (now : Int) : Stats :=
  if snapshot.length = 0 then
    { total := 0, largest := some 0, averageMagnitude := some 0, last24Hours := 0 }
  else
    let magnitudes := magsOf snapshot
    let largest := maxQ magnitudes
    let averageMagnitude :=
      if magnitudes.length = 0 then none
      else some (magnitudes.sum / magnitudes.length)
    let last24Hours :=
      (snapshot.filter fun eq => now - eq.time < 24 * 60 * 60 * 1000).length
    { total := snapshot.length, largest := largest,
      averageMagnitude := averageMagnitude, last24Hours := last24Hours }

/-! ## Statistics aggregators (src/components/Statistics.js) -/

/-- Result record of `getMagnitudeStats`.  On an empty snapshot the source
returns `{}`, whose fields read back as `undefined` and are rendered
through `|| 0`; that observable value coincides with the all-zero counts
this translation produces on an empty snapshot. -/
structure MagnitudeStats where
  minor : Nat
  light : Nat
  moderate : Nat
  strong : Nat
  major : Nat
deriving DecidableEq

/-- Translation of `getMagnitudeStats` (src/components/Statistics.js
lines 96-110): five filter counts over the non-null magnitudes. -/
def getMagnitudeStats (snapshot : List SeismicEvent) : MagnitudeStats :=
  let magnitudes := magsOf snapshot
  { minor := (magnitudes.filter fun m => m < 4).length,
    light := (magnitudes.filter fun m => 4 ≤ m ∧ m < 5).length,
    moderate := (magnitudes.filter fun m => 5 ≤ m ∧ m < 6).length,
    strong := (magnitudes.filter fun m => 6 ≤ m ∧ m < 7).length,
    major := (magnitudes.filter fun m => 7 ≤ m).length }

/-- Result record of `getDepthDistribution` (same `{}`-on-empty remark as
for `MagnitudeStats`). -/
structure DepthStats where
  shallow : Nat
  intermediate : Nat
  deep : Nat
deriving DecidableEq

/-- Translation of `getDepthDistribution` (src/components/Statistics.js
lines 82-94): three filter counts over the non-null depths. -/
def getDepthDistribution (snapshot : List SeismicEvent) : DepthStats :=
  let depths := depthsOf snapshot
  { shallow := (depths.filter fun d => d < 70).length,
    intermediate := (depths.filter fun d => 70 ≤ d ∧ d < 300).length,
    deep := (depths.filter fun d => 300 ≤ d).length }

/-- The named magnitude bands of the spec. -/
inductive MagBand where
  | minor | light | moderate | strong | major
deriving DecidableEq

/-- The magnitude classification realized by the source's filter
predicates (and by `getMagnitudeColor` in Dashboard.js): first matching
threshold from the top. -/
def classifyMagnitude (m : ℚ) : MagBand :=
  if 7 ≤ m then .major
  else if 6 ≤ m then .strong
  else if 5 ≤ m then .moderate
  else if 4 ≤ m then .light
  else .minor

/-- The named depth bands of the spec. -/
inductive DepthBand where
  | shallow | intermediate | deep
deriving DecidableEq

/-- The depth classification realized by the source's filter predicates. -/
def classifyDepth (d : ℚ) : DepthBand :=
  if d < 70 then .shallow
  else if d < 300 then .intermediate
  else .deep

/-- The bin a magnitude falls into under
`d3.bin().domain([0, 10]).thresholds(20)` (src/components/Statistics.js
lines 29-31).  With the explicit domain `[0, 10]` and tick count 20, d3
generates the thresholds `0.5, 1, …, 9.5` (ticks of step `0.5`, with the
ticks coincident with the domain bounds dropped), giving 20 bins of width
`0.5`; a value inside the domain lands in the bin at the bisection index
`min 19 ⌊2·m⌋`, and values outside `[0, 10]` are skipped. -/
def binIdx (m : ℚ) : Option Nat :=
  if 0 ≤ m ∧ m ≤ 10 then some (min 19 (Int.toNat ⌊2 * m⌋)) else none

/-- The magnitude histogram: for each of the 20 bins, the number of
non-null magnitudes the d3 binning places there. -/
def magnitudeHistogram (snapshot : List SeismicEvent) : List Nat :=
  (List.range 20).map fun i =>
    ((magsOf snapshot).filter fun m => binIdx m = some i).length

/-! ## Timeline aggregator (src/components/Dashboard.js lines 323-338) -/

/-- `Math.floor((now - eq.properties.time) / (1000 * 60 * 60))`: flooring
division, toward `-∞` also for events in the future. -/
def hoursAgo (now : Int) (e : SeismicEvent) : Int :=
  (now - e.time).fdiv (1000 * 60 * 60)

/-- `hourBuckets[k] = (hourBuckets[k] || 0) + 1` on the object modelled as
an association list: bump the entry for `k`, appending a fresh one if
absent. -/
def bump (k : Int) : List (Int × Nat) → List (Int × Nat)
  | [] => [(k, 1)]
  | q :: rest =>
      if q.1 = k then (q.1, q.2 + 1) :: rest else q :: bump k rest

/-- The `hourBuckets` object after the `forEach` over the snapshot. -/
def hourBuckets (now : Int) (snapshot : List SeismicEvent) : List (Int × Nat) :=
  snapshot.foldl (fun acc e => bump (hoursAgo now e) acc) []

/-- Stable sort of the `{hours, count}` entries ascending by `hours`,
modelling `.sort((a, b) => a.hours - b.hours)` (keys are distinct, so
stability is irrelevant here). -/
def sortByHours (l : List (Int × Nat)) : List (Int × Nat) :=
  l.insertionSort fun p q => p.1 ≤ q.1

instance : IsTotal (Int × Nat) fun p q => p.1 ≤ q.1 :=
  ⟨fun a b => le_total a.1 b.1⟩

instance : IsTrans (Int × Nat) fun p q => p.1 ≤ q.1 :=
  ⟨fun _ _ _ h h2 => le_trans h h2⟩

/-- Total count stored in an association list under a given key (used to
state the `hourBuckets` invariants). -/
def cntIn (l : List (Int × Nat)) (k : Int) : Nat :=
  (l.map fun p => if p.1 = k then p.2 else 0).sum

/-- Translation of `getTimeDistribution` (src/components/Dashboard.js
lines 323-338): empty result on an empty snapshot, otherwise the bucket
entries sorted ascending by `hours` and truncated by `slice(0, 24)`. -/
def getTimeDistribution (snapshot : List SeismicEvent) (now : Int) :
    List (Int × Nat) :=
  if snapshot.length = 0 then []
  else (sortByHours (hourBuckets now snapshot)).take 24

/-! ## Refresh flow (`fetchEarthquakeData`, src/unnamed/part_001 lines 92-121) -/

/-- The observable component state touched by `fetchEarthquakeData`. -/
structure AppState where
  earthquakeData : List SeismicEvent
  loading : Bool
deriving DecidableEq

/-- What the awaited fetch of `fetchEarthquakeData` comes back with: a
transport error, or a response with its `ok` flag and the parsed body's
optional `features` field. -/
inductive FetchResult where
  | netError
  | response (ok : Bool) (features : Option (List SeismicEvent))
deriving DecidableEq

/-- Translation of `fetchEarthquakeData` (src/unnamed/part_001 lines
92-113) as a state transformer on the component state, given the fetch's
outcome.  A non-ok status throws, and the `catch` block (which also
receives transport errors) only logs and sets the data to `[]`; the
`finally` block clears `loading`.  The function is total: no error escapes
to the caller. -/
def fetchEarthquakeData (st : AppState) (r : FetchResult) : AppState :=
  match r with
  | .netError => { st with earthquakeData := [], loading := false }
  | .response ok features =>
      if ok then { st with earthquakeData := features.getD [], loading := false }
      else { st with earthquakeData := [], loading := false }

/-- A completed fetch, tagged with the generation of the `FilterConfig`
that was current when it was issued, carrying the snapshot it parsed. -/
structure CompletedFetch where
  generation : Nat
  result : List SeismicEvent
deriving DecidableEq

/-- The source's completion handling applied over a completion order: each
resolving fetch runs `setEarthquakeData(data.features || [])`
unconditionally — there is no generation check — so the state transformer
for one completion ignores the completion's tag. -/
def applyCompletions (st : AppState) (completions : List CompletedFetch) : AppState :=
  completions.foldl
    (fun s f => { s with earthquakeData := f.result, loading := false }) st

/-- Shorthand for building concrete events in closed statements. -/
def mkEvent (i : String) (mag : Option ℚ) (depth : Option ℚ) (time : Int) :
    SeismicEvent :=
  { id := i, mag := mag, depth := depth, latitude := 0, longitude := 0,
    place := "", time := time, felt := none }

/-! ## Theorems -/

/-- `List.any` over a conditionally appended singleton block. -/
theorem any_ite_single (b : Bool) (p : QueryParam) (f : QueryParam → Bool) :
    (if b then [p] else []).any f = (b && f p) := by
  cases b <;> simp

/-- C1 (counterexample): contrary to the claim, a magnitude bound equal to
`0` is falsy in `buildUSGSQuery`, so the §8 scenario config
`{timeRange: 'week', minMagnitude: 2, maxMagnitude: 0, limit: 250}` does
not emit a `maxmagnitude` parameter (while it does emit `minmagnitude`). -/
theorem buildQuery_drops_zero_maxMagnitude :
    emits (buildUSGSQuery
      { timeRange := "week", minMagnitude := some 2, maxMagnitude := some 0,
        limit := some 250 } 0) "maxmagnitude" = false
    ∧ emits (buildUSGSQuery
      { timeRange := "week", minMagnitude := some 2, maxMagnitude := some 0,
        limit := some 250 } 0) "minmagnitude" = true := by
  constructor <;> rfl

/-- C1 (amended): each optional parameter (`minmagnitude`, `maxmagnitude`,
`mindepth`, `maxdepth`, `latitude`, `longitude`, `maxradiuskm`) is emitted
exactly when the corresponding config field is truthy, i.e. present and
nonzero; in particular a magnitude bound equal to `0` is treated as absent
and its parameter is omitted. -/
theorem buildQuery_optional_params (o : FilterOptions) (now : Int) :
    emits (buildUSGSQuery o now) "minmagnitude" = truthy o.minMagnitude
    ∧ emits (buildUSGSQuery o now) "maxmagnitude" = truthy o.maxMagnitude
    ∧ emits (buildUSGSQuery o now) "mindepth" = truthy o.minDepth
    ∧ emits (buildUSGSQuery o now) "maxdepth" = truthy o.maxDepth
    ∧ emits (buildUSGSQuery o now) "latitude" = truthy o.latitude
    ∧ emits (buildUSGSQuery o now) "longitude" = truthy o.longitude
    ∧ emits (buildUSGSQuery o now) "maxradiuskm" = truthy o.radius := by
  refine ⟨?_, ?_, ?_, ?_, ?_, ?_, ?_⟩ <;>
    simp [buildUSGSQuery, emits, List.any_append, any_ite_single, QueryParam.tag]

/-- C6: `buildUSGSQuery` maps `timeRange` hour/day/week/month to windows of
1h/24h/7d/30d ending at `now`, and any other `timeRange` value falls back
to the 24-hour window rather than failing. -/
theorem buildQuery_timeRange (o : FilterOptions) (now : Int)
    (h1 : o.timeRange ≠ "hour") (h2 : o.timeRange ≠ "day")
    (h3 : o.timeRange ≠ "week") (h4 : o.timeRange ≠ "month") :
    startOf (buildUSGSQuery o now) = some (now - 24 * 60 * 60 * 1000)
    ∧ endOf (buildUSGSQuery o now) = some now
    ∧ (∀ p : FilterOptions, ∀ t : Int,
        startOf (buildUSGSQuery p t) = some (t - durationFor p.timeRange)
        ∧ endOf (buildUSGSQuery p t) = some t)
    ∧ durationFor "hour" = 60 * 60 * 1000
    ∧ durationFor "day" = 24 * 60 * 60 * 1000
    ∧ durationFor "week" = 7 * 24 * 60 * 60 * 1000
    ∧ durationFor "month" = 30 * 24 * 60 * 60 * 1000 := by
  refine ⟨?_, ?_, ?_, rfl, rfl, rfl, rfl⟩
  · simp [buildUSGSQuery, startOf, durationFor, h1, h2, h3, h4]
  · simp [buildUSGSQuery, endOf]
  · intro p t
    exact ⟨by simp [buildUSGSQuery, startOf], by simp [buildUSGSQuery, endOf]⟩

/-- C6 (witness): the fallback at the concrete unrecognized value
`timeRange = "year"`. -/
theorem buildQuery_timeRange_witness :
    startOf (buildUSGSQuery { timeRange := "year" } 0) = some (-(24 * 60 * 60 * 1000))
    ∧ endOf (buildUSGSQuery { timeRange := "year" } 0) = some 0 := by
  have h := buildQuery_timeRange { timeRange := "year" } 0
    (by decide) (by decide) (by decide) (by decide)
  exact ⟨by rw [h.1]; norm_num, h.2.1⟩

/-- C10: each optional numeric field among `minDepth`, `maxDepth`,
`latitude`, `longitude`, `radius` that equals `0` is falsy on its own, so
its query parameter is omitted entirely regardless of the other fields
(a search centered on the equator or prime meridian cannot be expressed),
and a `limit` of `0` or absent is replaced through
`filterOptions.limit || 100` by the default `100`. -/
theorem buildQuery_zero_fields (o : FilterOptions) (now : Int) :
    (o.minDepth = some 0 → emits (buildUSGSQuery o now) "mindepth" = false)
    ∧ (o.maxDepth = some 0 → emits (buildUSGSQuery o now) "maxdepth" = false)
    ∧ (o.latitude = some 0 → emits (buildUSGSQuery o now) "latitude" = false)
    ∧ (o.longitude = some 0 → emits (buildUSGSQuery o now) "longitude" = false)
    ∧ (o.radius = some 0 → emits (buildUSGSQuery o now) "maxradiuskm" = false)
    ∧ (o.limit = none ∨ o.limit = some 0 →
        limitOf (buildUSGSQuery o now) = some 100) := by
  have hq := buildQuery_optional_params o now
  refine ⟨fun h => ?_, fun h => ?_, fun h => ?_, fun h => ?_, fun h => ?_,
    fun h => ?_⟩
  · rw [hq.2.2.1, h]; rfl
  · rw [hq.2.2.2.1, h]; rfl
  · rw [hq.2.2.2.2.1, h]; rfl
  · rw [hq.2.2.2.2.2.1, h]; rfl
  · rw [hq.2.2.2.2.2.2, h]; rfl
  · rcases h with h | h <;> simp [buildUSGSQuery, limitOf, truthy, h]

/-- C10 (witness): an equator-centered search (latitude `0`, nonzero
longitude and radius) omits only the `latitude` parameter, and a config
with zero depth bounds, zero longitude, zero radius and no `limit` omits
those parameters and defaults the limit to `100`. -/
theorem buildQuery_zero_fields_witness :
    emits (buildUSGSQuery
      { timeRange := "day", latitude := some 0, longitude := some 30,
        radius := some 500 } 0) "latitude" = false
    ∧ emits (buildUSGSQuery
      { timeRange := "day", latitude := some 0, longitude := some 30,
        radius := some 500 } 0) "longitude" = true
    ∧ emits (buildUSGSQuery
      { timeRange := "day", latitude := some 0, longitude := some 30,
        radius := some 500 } 0) "maxradiuskm" = true
    ∧ emits (buildUSGSQuery
      { timeRange := "day", minDepth := some 0, maxDepth := some 0,
        longitude := some 0, radius := some 0 } 0) "mindepth" = false
    ∧ emits (buildUSGSQuery
      { timeRange := "day", minDepth := some 0, maxDepth := some 0,
        longitude := some 0, radius := some 0 } 0) "maxdepth" = false
    ∧ emits (buildUSGSQuery
      { timeRange := "day", minDepth := some 0, maxDepth := some 0,
        longitude := some 0, radius := some 0 } 0) "longitude" = false
    ∧ emits (buildUSGSQuery
      { timeRange := "day", minDepth := some 0, maxDepth := some 0,
        longitude := some 0, radius := some 0 } 0) "maxradiuskm" = false
    ∧ limitOf (buildUSGSQuery
      { timeRange := "day", minDepth := some 0, maxDepth := some 0,
        longitude := some 0, radius := some 0 } 0) = some 100 :=
  ⟨(buildQuery_zero_fields
      { timeRange := "day", latitude := some 0, longitude := some 30,
        radius := some 500 } 0).2.2.1 rfl,
   rfl,
   rfl,
   (buildQuery_zero_fields
      { timeRange := "day", minDepth := some 0, maxDepth := some 0,
        longitude := some 0, radius := some 0 } 0).1 rfl,
   (buildQuery_zero_fields
      { timeRange := "day", minDepth := some 0, maxDepth := some 0,
        longitude := some 0, radius := some 0 } 0).2.1 rfl,
   (buildQuery_zero_fields
      { timeRange := "day", minDepth := some 0, maxDepth := some 0,
        longitude := some 0, radius := some 0 } 0).2.2.2.1 rfl,
   (buildQuery_zero_fields
      { timeRange := "day", minDepth := some 0, maxDepth := some 0,
        longitude := some 0, radius := some 0 } 0).2.2.2.2.1 rfl,
   (buildQuery_zero_fields
      { timeRange := "day", minDepth := some 0, maxDepth := some 0,
        longitude := some 0, radius := some 0 } 0).2.2.2.2.2 (Or.inl rfl)⟩

/-- C8: on a transport error or a non-ok HTTP status the snapshot is
replaced with the empty list and `loading` is cleared — the error is
absorbed by the `catch` block, which only logs, so no error reaches the
caller (the transformer is a total function); on an ok response whose body
has no `features` field the snapshot is likewise replaced with the empty
list, and on an ok response with features it becomes exactly those
features. -/
theorem fetch_failure_clears_snapshot (st : AppState) :
    fetchEarthquakeData st .netError = { earthquakeData := [], loading := false }
    ∧ (∀ features, fetchEarthquakeData st (.response false features)
        = { earthquakeData := [], loading := false })
    ∧ fetchEarthquakeData st (.response true none)
        = { earthquakeData := [], loading := false }
    ∧ (∀ fs, fetchEarthquakeData st (.response true (some fs))
        = { earthquakeData := fs, loading := false }) := by
  refine ⟨rfl, fun _ => rfl, rfl, fun _ => rfl⟩

/-- C9: the completion handler stores every resolving fetch's result
unconditionally, with no generation guard, so when the fetch issued under
the newer config (generation 1) resolves before the stale in-flight fetch
(generation 0), the stale result overwrites it: the final snapshot is the
stale fetch's empty result, not the newer fetch's data. -/
theorem stale_fetch_overwrites_newer :
    (applyCompletions { earthquakeData := [], loading := true }
      [{ generation := 1, result := [mkEvent "new" (some 5) none 100] },
       { generation := 0, result := [] }]).earthquakeData = []
    ∧ ([] : List SeismicEvent) ≠ [mkEvent "new" (some 5) none 100] := by
  exact ⟨rfl, by decide⟩

/-- C2 (code evaluated at the failing input): `recentEarthquakes` sorts the
shared `earthquakeData` array in place, so after the call on the snapshot
`[a@t1, b@t2]` the snapshot itself has been reordered to `[b@t2, a@t1]` —
the input is mutated, contradicting the never-mutates clause — while the
returned value is the correctly sorted, truncated list and a second call on
the (already sorted) snapshot returns the identical result. -/
theorem recentEarthquakes_mutates_input :
    (recentEarthquakes [mkEvent "a" none none 1, mkEvent "b" none none 2]).2
      ≠ [mkEvent "a" none none 1, mkEvent "b" none none 2]
    ∧ (recentEarthquakes [mkEvent "a" none none 1, mkEvent "b" none none 2]).1
      = [mkEvent "b" none none 2, mkEvent "a" none none 1]
    ∧ (recentEarthquakes
        ((recentEarthquakes [mkEvent "a" none none 1, mkEvent "b" none none 2]).2)).1
      = (recentEarthquakes [mkEvent "a" none none 1, mkEvent "b" none none 2]).1 := by
  refine ⟨by decide, by decide, by decide⟩

/-- Unfolding of `maxQ` on a cons cell. -/
theorem maxQ_cons (x : ℚ) (xs : List ℚ) :
    maxQ (x :: xs) = match maxQ xs with
      | none => some x
      | some y => some (max x y) := rfl

/-- `maxQ` is `none` only on the empty list. -/
theorem maxQ_eq_none : ∀ l : List ℚ, maxQ l = none → l = [] := by
  intro l h
  cases l with
  | nil => rfl
  | cons x xs =>
    rw [maxQ_cons] at h
    cases hm : maxQ xs <;> rw [hm] at h <;> exact Option.noConfusion h

/-- `maxQ` of a non-empty list is an element bounding the whole list. -/
theorem maxQ_spec : ∀ l : List ℚ, l ≠ [] →
    ∃ L, maxQ l = some L ∧ L ∈ l ∧ ∀ m ∈ l, m ≤ L := by
  intro l
  induction l with
  | nil => intro h; exact absurd rfl h
  | cons x xs ih =>
    intro _
    cases hm : maxQ xs with
    | none =>
      refine ⟨x, by rw [maxQ_cons, hm], List.mem_cons_self x xs, ?_⟩
      intro m hmem
      rcases List.mem_cons.mp hmem with rfl | hmem
      · exact le_refl m
      · rw [maxQ_eq_none xs hm] at hmem
        exact absurd hmem (List.not_mem_nil m)
    | some L =>
      have hxs : xs ≠ [] := by
        intro h
        rw [h] at hm
        exact Option.noConfusion hm
      obtain ⟨L', hL', hmem, hub⟩ := ih hxs
      have hLL : L' = L := Option.some.inj (hL'.symm.trans hm)
      subst hLL
      refine ⟨max x L', by rw [maxQ_cons, hm], ?_, ?_⟩
      · rcases max_choice x L' with h | h
        · rw [h]; exact List.mem_cons_self x xs
        · rw [h]; exact List.mem_cons_of_mem x hmem
      · intro m hmem2
        rcases List.mem_cons.mp hmem2 with rfl | hmem2
        · exact le_max_left _ _
        · exact le_trans (hub m hmem2) (le_max_right _ _)

/-- C3 (counterexample): on a non-empty snapshot whose events all have
null magnitude, `getStats` does not default `largest` and
`averageMagnitude` to `0`: `Math.max()` of no arguments is `-Infinity`
and `0/0` is `NaN` (both modelled as `none`), so neither equals `0`. -/
theorem getStats_allNull_not_zero :
    (getStats [mkEvent "a" none none 0] 0).largest ≠ some 0
    ∧ (getStats [mkEvent "a" none none 0] 0).averageMagnitude ≠ some 0 := by
  exact ⟨by decide, by decide⟩

/-- C3 (amended): `total` is the snapshot size including null-magnitude
events and `last24Hours` counts events with `now - timeMs < 24h`; the
all-zero record is returned exactly on the empty snapshot; when at least
one non-null magnitude exists, `largest` is a greatest non-null magnitude
and `averageMagnitude` is their sum divided by their count; but on a
non-empty snapshot with no non-null magnitude, `largest` and
`averageMagnitude` are `-Infinity` and `NaN` (modelled `none`), not `0`. -/
theorem getStats_spec (snapshot : List SeismicEvent) (now : Int) :
    (getStats snapshot now).total = snapshot.length
    ∧ (getStats snapshot now).last24Hours
        = (snapshot.filter fun e => now - e.time < 24 * 60 * 60 * 1000).length
    ∧ (snapshot = [] → getStats snapshot now
        = { total := 0, largest := some 0, averageMagnitude := some 0,
            last24Hours := 0 })
    ∧ (magsOf snapshot ≠ [] →
        (∃ L, (getStats snapshot now).largest = some L ∧ L ∈ magsOf snapshot
          ∧ ∀ m ∈ magsOf snapshot, m ≤ L)
        ∧ (getStats snapshot now).averageMagnitude
            = some ((magsOf snapshot).sum / (magsOf snapshot).length))
    ∧ (snapshot ≠ [] → magsOf snapshot = [] →
        (getStats snapshot now).largest = none
        ∧ (getStats snapshot now).averageMagnitude = none) := by
  by_cases hs : snapshot.length = 0
  · have hnil : snapshot = [] := List.length_eq_zero.mp hs
    subst hnil
    refine ⟨rfl, rfl, fun _ => rfl, fun h => absurd rfl h, fun h => absurd rfl h⟩
  · have hne : snapshot ≠ [] := fun h => hs (by rw [h]; rfl)
    refine ⟨?_, ?_, fun h => absurd h hne, ?_, ?_⟩
    · simp [getStats, hs]
    · simp [getStats, hs]
    · intro hmags
      have hlen : (magsOf snapshot).length ≠ 0 := fun h =>
        hmags (List.length_eq_zero.mp h)
      obtain ⟨L, hL, hmem, hub⟩ := maxQ_spec (magsOf snapshot) hmags
      constructor
      · exact ⟨L, by simp [getStats, hs, hL], hmem, hub⟩
      · simp [getStats, hs, hlen]
    · intro _ hmags
      constructor
      · simp [getStats, hs, hmags, maxQ]
      · simp [getStats, hs, hmags]

/-- C3 (witness): the amended claim at the empty snapshot, at a snapshot
with one magnitude-5 event, and at a snapshot with a single null-magnitude
event. -/
theorem getStats_spec_witness :
    getStats ([] : List SeismicEvent) 0
      = { total := 0, largest := some 0, averageMagnitude := some 0,
          last24Hours := 0 }
    ∧ (∃ L, (getStats [mkEvent "a" (some 5) none 0] 0).largest = some L
        ∧ L ∈ magsOf [mkEvent "a" (some 5) none 0]
        ∧ ∀ m ∈ magsOf [mkEvent "a" (some 5) none 0], m ≤ L)
    ∧ (getStats [mkEvent "b" none none 0] 0).largest = none :=
  ⟨(getStats_spec [] 0).2.2.1 rfl,
   ((getStats_spec [mkEvent "a" (some 5) none 0] 0).2.2.2.1 (by decide)).1,
   ((getStats_spec [mkEvent "b" none none 0] 0).2.2.2.2 (by decide) (by decide)).1⟩

/-- Length of a filter over a cons cell whose head satisfies the
predicate (predicate explicit, to steer unification). -/
theorem filter_len_cons_pos {α : Type} (p : α → Bool) (a : α) (l : List α)
    (h : p a = true) :
    (List.filter p (a :: l)).length = (List.filter p l).length + 1 := by
  rw [List.filter_cons_of_pos h]
  rfl

/-- Length of a filter over a cons cell whose head fails the predicate. -/
theorem filter_len_cons_neg {α : Type} (p : α → Bool) (a : α) (l : List α)
    (h : p a = false) :
    (List.filter p (a :: l)).length = (List.filter p l).length := by
  rw [List.filter_cons_of_neg (by simp [h])]

/-- The five magnitude band filters of `getMagnitudeStats` split any list
of magnitudes exactly: their lengths sum to the list's length. -/
theorem mag_band_lengths (l : List ℚ) :
    (l.filter fun m => m < 4).length + (l.filter fun m => 4 ≤ m ∧ m < 5).length
    + (l.filter fun m => 5 ≤ m ∧ m < 6).length
    + (l.filter fun m => 6 ≤ m ∧ m < 7).length
    + (l.filter fun m => 7 ≤ m).length = l.length := by
  induction l with
  | nil => rfl
  | cons m l ih =>
    rcases lt_or_le m 4 with h1 | h1
    · have k2 : ¬ (4 ≤ m ∧ m < 5) := fun hc => absurd hc.1 (not_le.mpr h1)
      have k3 : ¬ (5 ≤ m ∧ m < 6) := fun hc => by linarith [hc.1]
      have k4 : ¬ (6 ≤ m ∧ m < 7) := fun hc => by linarith [hc.1]
      have k5 : ¬ 7 ≤ m := fun hc => by linarith
      rw [filter_len_cons_pos (fun m => decide (m < 4)) m l (decide_eq_true h1),
        filter_len_cons_neg (fun m => decide (4 ≤ m ∧ m < 5)) m l (decide_eq_false k2),
        filter_len_cons_neg (fun m => decide (5 ≤ m ∧ m < 6)) m l (decide_eq_false k3),
        filter_len_cons_neg (fun m => decide (6 ≤ m ∧ m < 7)) m l (decide_eq_false k4),
        filter_len_cons_neg (fun m => decide (7 ≤ m)) m l (decide_eq_false k5)]
      simp only [List.length_cons]
      omega
    · rcases lt_or_le m 5 with h2 | h2
      · have k1 : ¬ m < 4 := not_lt.mpr h1
        have k3 : ¬ (5 ≤ m ∧ m < 6) := fun hc => by linarith [hc.1]
        have k4 : ¬ (6 ≤ m ∧ m < 7) := fun hc => by linarith [hc.1]
        have k5 : ¬ 7 ≤ m := fun hc => by linarith
        rw [filter_len_cons_neg (fun m => decide (m < 4)) m l (decide_eq_false k1),
          filter_len_cons_pos (fun m => decide (4 ≤ m ∧ m < 5)) m l
            (decide_eq_true (And.intro h1 h2)),
          filter_len_cons_neg (fun m => decide (5 ≤ m ∧ m < 6)) m l (decide_eq_false k3),
          filter_len_cons_neg (fun m => decide (6 ≤ m ∧ m < 7)) m l (decide_eq_false k4),
          filter_len_cons_neg (fun m => decide (7 ≤ m)) m l (decide_eq_false k5)]
        simp only [List.length_cons]
        omega
      · rcases lt_or_le m 6 with h3 | h3
        · have k1 : ¬ m < 4 := fun hc => by linarith
          have k2 : ¬ (4 ≤ m ∧ m < 5) := fun hc => by linarith [hc.2]
          have k4 : ¬ (6 ≤ m ∧ m < 7) := fun hc => by linarith [hc.1]
          have k5 : ¬ 7 ≤ m := fun hc => by linarith
          rw [filter_len_cons_neg (fun m => decide (m < 4)) m l (decide_eq_false k1),
            filter_len_cons_neg (fun m => decide (4 ≤ m ∧ m < 5)) m l (decide_eq_false k2),
            filter_len_cons_pos (fun m => decide (5 ≤ m ∧ m < 6)) m l
              (decide_eq_true (And.intro h2 h3)),
            filter_len_cons_neg (fun m => decide (6 ≤ m ∧ m < 7)) m l (decide_eq_false k4),
            filter_len_cons_neg (fun m => decide (7 ≤ m)) m l (decide_eq_false k5)]
          simp only [List.length_cons]
          omega
        · rcases lt_or_le m 7 with h4 | h4
          · have k1 : ¬ m < 4 := fun hc => by linarith
            have k2 : ¬ (4 ≤ m ∧ m < 5) := fun hc => by linarith [hc.2]
            have k3 : ¬ (5 ≤ m ∧ m < 6) := fun hc => by linarith [hc.2]
            have k5 : ¬ 7 ≤ m := not_le.mpr h4
            rw [filter_len_cons_neg (fun m => decide (m < 4)) m l (decide_eq_false k1),
              filter_len_cons_neg (fun m => decide (4 ≤ m ∧ m < 5)) m l (decide_eq_false k2),
              filter_len_cons_neg (fun m => decide (5 ≤ m ∧ m < 6)) m l (decide_eq_false k3),
              filter_len_cons_pos (fun m => decide (6 ≤ m ∧ m < 7)) m l
                (decide_eq_true (And.intro h3 h4)),
              filter_len_cons_neg (fun m => decide (7 ≤ m)) m l (decide_eq_false k5)]
            simp only [List.length_cons]
            omega
          · have k1 : ¬ m < 4 := fun hc => by linarith
            have k2 : ¬ (4 ≤ m ∧ m < 5) := fun hc => by linarith [hc.2]
            have k3 : ¬ (5 ≤ m ∧ m < 6) := fun hc => by linarith [hc.2]
            have k4 : ¬ (6 ≤ m ∧ m < 7) := fun hc => by linarith [hc.2]
            rw [filter_len_cons_neg (fun m => decide (m < 4)) m l (decide_eq_false k1),
              filter_len_cons_neg (fun m => decide (4 ≤ m ∧ m < 5)) m l (decide_eq_false k2),
              filter_len_cons_neg (fun m => decide (5 ≤ m ∧ m < 6)) m l (decide_eq_false k3),
              filter_len_cons_neg (fun m => decide (6 ≤ m ∧ m < 7)) m l (decide_eq_false k4),
              filter_len_cons_pos (fun m => decide (7 ≤ m)) m l (decide_eq_true h4)]
            simp only [List.length_cons]
            omega

/-- The three depth band filters of `getDepthDistribution` split any list
of depths exactly. -/
theorem depth_band_lengths (l : List ℚ) :
    (l.filter fun d => d < 70).length + (l.filter fun d => 70 ≤ d ∧ d < 300).length
    + (l.filter fun d => 300 ≤ d).length = l.length := by
  induction l with
  | nil => rfl
  | cons d l ih =>
    rcases lt_or_le d 70 with h1 | h1
    · have k2 : ¬ (70 ≤ d ∧ d < 300) := fun hc => by linarith [hc.1]
      have k3 : ¬ 300 ≤ d := fun hc => by linarith
      rw [filter_len_cons_pos (fun d => decide (d < 70)) d l (decide_eq_true h1),
        filter_len_cons_neg (fun d => decide (70 ≤ d ∧ d < 300)) d l (decide_eq_false k2),
        filter_len_cons_neg (fun d => decide (300 ≤ d)) d l (decide_eq_false k3)]
      simp only [List.length_cons]
      omega
    · rcases lt_or_le d 300 with h2 | h2
      · have k1 : ¬ d < 70 := not_lt.mpr h1
        have k3 : ¬ 300 ≤ d := not_le.mpr h2
        rw [filter_len_cons_neg (fun d => decide (d < 70)) d l (decide_eq_false k1),
          filter_len_cons_pos (fun d => decide (70 ≤ d ∧ d < 300)) d l
            (decide_eq_true (And.intro h1 h2)),
          filter_len_cons_neg (fun d => decide (300 ≤ d)) d l (decide_eq_false k3)]
        simp only [List.length_cons]
        omega
      · have k1 : ¬ d < 70 := fun hc => by linarith
        have k2 : ¬ (70 ≤ d ∧ d < 300) := fun hc => by linarith [hc.2]
        rw [filter_len_cons_neg (fun d => decide (d < 70)) d l (decide_eq_false k1),
          filter_len_cons_neg (fun d => decide (70 ≤ d ∧ d < 300)) d l (decide_eq_false k2),
          filter_len_cons_pos (fun d => decide (300 ≤ d)) d l (decide_eq_true h2)]
        simp only [List.length_cons]
        omega

/-- C4: the magnitude and depth band predicates are the fibers of the
total classification functions (hence pairwise disjoint and exhaustive:
no gaps, overlaps, or double counting), boundary values land in the higher
band (`7.0` is major, `4.0` is light, `70` is intermediate, `300` is
deep), and for every snapshot the band counts of `getMagnitudeStats` sum
to the number of events with non-null magnitude, and those of
`getDepthDistribution` to the number of events with non-null depth. -/
theorem classification_partitions (snapshot : List SeismicEvent) :
    (getMagnitudeStats snapshot).minor + (getMagnitudeStats snapshot).light
      + (getMagnitudeStats snapshot).moderate + (getMagnitudeStats snapshot).strong
      + (getMagnitudeStats snapshot).major = (magsOf snapshot).length
    ∧ (getDepthDistribution snapshot).shallow
      + (getDepthDistribution snapshot).intermediate
      + (getDepthDistribution snapshot).deep = (depthsOf snapshot).length
    ∧ classifyMagnitude 7 = .major ∧ classifyMagnitude 4 = .light
    ∧ classifyDepth 70 = .intermediate ∧ classifyDepth 300 = .deep
    ∧ (∀ m : ℚ, (m < 4 ↔ classifyMagnitude m = .minor)
        ∧ ((4 ≤ m ∧ m < 5) ↔ classifyMagnitude m = .light)
        ∧ ((5 ≤ m ∧ m < 6) ↔ classifyMagnitude m = .moderate)
        ∧ ((6 ≤ m ∧ m < 7) ↔ classifyMagnitude m = .strong)
        ∧ (7 ≤ m ↔ classifyMagnitude m = .major))
    ∧ (∀ d : ℚ, (d < 70 ↔ classifyDepth d = .shallow)
        ∧ ((70 ≤ d ∧ d < 300) ↔ classifyDepth d = .intermediate)
        ∧ (300 ≤ d ↔ classifyDepth d = .deep)) := by
  refine ⟨mag_band_lengths (magsOf snapshot), depth_band_lengths (depthsOf snapshot),
    by norm_num [classifyMagnitude], by norm_num [classifyMagnitude],
    by norm_num [classifyDepth], by norm_num [classifyDepth], ?_, ?_⟩
  · intro m
    unfold classifyMagnitude
    refine ⟨?_, ?_, ?_, ?_, ?_⟩ <;>
      split_ifs with h1 h2 h3 h4 <;> constructor <;> intro hx <;>
      first
        | rfl
        | (exact ⟨by linarith, by linarith⟩)
        | linarith
        | (simp at hx)
  · intro d
    unfold classifyDepth
    refine ⟨?_, ?_, ?_⟩ <;>
      split_ifs with h1 h2 <;> constructor <;> intro hx <;>
      first
        | rfl
        | (exact ⟨by linarith, by linarith⟩)
        | linarith
        | (simp at hx)

/-- Every bin index produced by `binIdx` is below 20. -/
theorem binIdx_lt20 {m : ℚ} {i : Nat} (h : binIdx m = some i) : i < 20 := by
  unfold binIdx at h
  split_ifs at h with h0
  · have hmin := Option.some.inj h
    have hle : min 19 (Int.toNat ⌊2 * m⌋) ≤ 19 := min_le_left _ _
    omega

/-- For `i < 19`, the d3 bin at index `i` is exactly the half-open
interval `[i/2, (i+1)/2)`. -/
theorem binIdx_eq_iff_lt19 {i : Nat} (hi : i < 19) (m : ℚ) :
    binIdx m = some i ↔ ((i : ℚ) / 2 ≤ m ∧ m < ((i : ℚ) + 1) / 2) := by
  unfold binIdx
  constructor
  · intro h
    split_ifs at h with h0
    · obtain ⟨h0l, h0r⟩ := h0
      have hmin := Option.some.inj h
      have hfl0 : (0 : ℤ) ≤ ⌊2 * m⌋ := Int.floor_nonneg.mpr (by linarith)
      have htn : Int.toNat ⌊2 * m⌋ = i := by
        rcases Nat.le_total 19 (Int.toNat ⌊2 * m⌋) with hge | hle
        · rw [min_eq_left hge] at hmin
          omega
        · rw [min_eq_right hle] at hmin
          omega
      have hfl : ⌊2 * m⌋ = (i : ℤ) := by omega
      constructor
      · have h1 : ((i : ℤ) : ℚ) ≤ 2 * m := hfl ▸ Int.floor_le (2 * m)
        push_cast at h1
        linarith
      · have h2 : 2 * m < ⌊2 * m⌋ + 1 := Int.lt_floor_add_one (2 * m)
        rw [hfl] at h2
        push_cast at h2
        linarith
  · rintro ⟨hl, hr⟩
    have hi0 : (0 : ℚ) ≤ (i : ℚ) / 2 := by positivity
    have h0 : 0 ≤ m := le_trans hi0 hl
    have hi18 : (i : ℚ) ≤ 18 := by exact_mod_cast Nat.le_of_lt_succ hi
    have h10 : m ≤ 10 := by linarith
    rw [if_pos ⟨h0, h10⟩]
    have hfl : ⌊2 * m⌋ = (i : ℤ) := by
      apply Int.floor_eq_iff.mpr
      constructor
      · push_cast
        linarith
      · push_cast
        linarith
    rw [hfl, Int.toNat_natCast, min_eq_right (by omega : i ≤ 19)]

/-- The last d3 bin (index 19) is the closed interval `[9.5, 10]`. -/
theorem binIdx_eq19_iff (m : ℚ) :
    binIdx m = some 19 ↔ ((19 : ℚ) / 2 ≤ m ∧ m ≤ 10) := by
  unfold binIdx
  split_ifs with h0
  · rw [Option.some.injEq]
    constructor
    · intro hmin
      have h19 : 19 ≤ Int.toNat ⌊2 * m⌋ := by
        rcases Nat.le_total 19 (Int.toNat ⌊2 * m⌋) with hge | hle
        · exact hge
        · rw [min_eq_right hle] at hmin
          omega
      have hz : (19 : ℤ) ≤ ⌊2 * m⌋ := by omega
      have h2m : ((19 : ℤ) : ℚ) ≤ 2 * m := le_trans (by norm_num) (Int.le_floor.mp hz)
      push_cast at h2m
      exact ⟨by linarith, h0.2⟩
    · rintro ⟨hl, _⟩
      have hz : (19 : ℤ) ≤ ⌊2 * m⌋ := Int.le_floor.mpr (by push_cast; linarith)
      have h19 : 19 ≤ Int.toNat ⌊2 * m⌋ := by omega
      rw [min_eq_left h19]
  · constructor
    · intro h
      exact absurd h (by simp)
    · rintro ⟨hl, hr⟩
      exact absurd ⟨by linarith, hr⟩ h0

/-- Magnitudes outside the fixed domain `[0, 10]` land in no bin. -/
theorem binIdx_none_of_outside (m : ℚ) (h : m < 0 ∨ 10 < m) : binIdx m = none := by
  unfold binIdx
  rw [if_neg]
  rintro ⟨h0, h10⟩
  rcases h with h | h <;> linarith

/-- Indexing with default into a map over a range. -/
theorem getD_map_range (f : Nat → Nat) {n i : Nat} (h : i < n) :
    ((List.range n).map f).getD i 0 = f i := by
  rw [List.getD_eq_getElem?_getD, List.getElem?_map, List.getElem?_range h]
  rfl

/-- Sums over a range of a pointwise sum split into two sums. -/
theorem sum_map_add_nat (n : Nat) (f g : Nat → Nat) :
    ((List.range n).map fun i => f i + g i).sum
      = ((List.range n).map f).sum + ((List.range n).map g).sum := by
  induction n with
  | zero => rfl
  | succ n ih =>
    rw [List.range_succ]
    simp only [List.map_append, List.sum_append, List.map_cons, List.map_nil,
      List.sum_cons, List.sum_nil, ih]
    omega

/-- Summing the indicator of a single index over a covering range gives 1. -/
theorem sum_map_ite_one (n j : Nat) (h : j < n) :
    ((List.range n).map fun i => if j = i then 1 else 0).sum = 1 := by
  induction n with
  | zero => omega
  | succ n ih =>
    rw [List.range_succ, List.map_append, List.sum_append]
    rcases Nat.lt_or_ge j n with hj | hj
    · rw [ih hj]
      have hne : j ≠ n := by omega
      simp [hne]
    · have hjn : j = n := by omega
      subst hjn
      have h0 : ((List.range j).map fun i => if j = i then 1 else 0).sum = 0 := by
        apply List.sum_eq_zero
        intro x hx
        simp only [List.mem_map, List.mem_range] at hx
        obtain ⟨i, hin, rfl⟩ := hx
        rw [if_neg (by omega)]
      simp [h0]

/-- The d3 bin counts over any list of magnitudes sum to the number of
magnitudes inside the domain `[0, 10]`. -/
theorem histogram_sum (l : List ℚ) :
    ((List.range 20).map fun i => (l.filter fun m => binIdx m = some i).length).sum
      = (l.filter fun m => 0 ≤ m ∧ m ≤ 10).length := by
  induction l with
  | nil => rfl
  | cons m l ih =>
    by_cases hm : 0 ≤ m ∧ m ≤ 10
    · have hsome : ∃ j, binIdx m = some j := by
        unfold binIdx
        rw [if_pos hm]
        exact ⟨_, rfl⟩
      obtain ⟨j, hj⟩ := hsome
      have hj20 : j < 20 := binIdx_lt20 hj
      have hstep : ∀ i : Nat,
          ((m :: l).filter fun x => binIdx x = some i).length
            = (l.filter fun x => binIdx x = some i).length + (if j = i then 1 else 0) := by
        intro i
        by_cases hji : j = i
        · subst hji
          rw [filter_len_cons_pos (fun x => decide (binIdx x = some j)) m l
            (decide_eq_true hj), if_pos rfl]
        · rw [filter_len_cons_neg (fun x => decide (binIdx x = some i)) m l
            (decide_eq_false fun hc => hji (Option.some.inj (hj.symm.trans hc))),
            if_neg hji]
          omega
      rw [List.map_congr_left fun i _ => hstep i, sum_map_add_nat 20, ih,
        sum_map_ite_one 20 j hj20,
        filter_len_cons_pos (fun x => decide (0 ≤ x ∧ x ≤ 10)) m l (decide_eq_true hm)]
    · have hnone : binIdx m = none := by
        unfold binIdx
        rw [if_neg hm]
      have hstep : ∀ i : Nat,
          ((m :: l).filter fun x => binIdx x = some i).length
            = (l.filter fun x => binIdx x = some i).length := by
        intro i
        exact filter_len_cons_neg (fun x => decide (binIdx x = some i)) m l
          (decide_eq_false fun hc => Option.noConfusion (hnone.symm.trans hc))
      rw [List.map_congr_left fun i _ => hstep i, ih,
        filter_len_cons_neg (fun x => decide (0 ≤ x ∧ x ≤ 10)) m l (decide_eq_false hm)]

/-- C5: the magnitude histogram has exactly 20 bins over the fixed domain
`[0, 10]`; bin `i < 19` counts the non-null magnitudes in the half-open
interval `[i/2, (i+1)/2)`, the last bin is closed on both ends to include
magnitude exactly 10, the bin counts sum to the number of non-null
magnitudes within `[0, 10]`, and magnitudes outside `[0, 10]` fall in no
bin. -/
theorem magnitudeHistogram_spec (snapshot : List SeismicEvent) :
    (magnitudeHistogram snapshot).length = 20
    ∧ (∀ i : Nat, i < 19 → (magnitudeHistogram snapshot).getD i 0
        = ((magsOf snapshot).filter
            fun m => (i : ℚ) / 2 ≤ m ∧ m < ((i : ℚ) + 1) / 2).length)
    ∧ ((magnitudeHistogram snapshot).getD 19 0
        = ((magsOf snapshot).filter fun m => (19 : ℚ) / 2 ≤ m ∧ m ≤ 10).length)
    ∧ ((magnitudeHistogram snapshot).sum
        = ((magsOf snapshot).filter fun m => 0 ≤ m ∧ m ≤ 10).length)
    ∧ (∀ m : ℚ, m < 0 ∨ 10 < m → binIdx m = none) := by
  refine ⟨?_, ?_, ?_, ?_, binIdx_none_of_outside⟩
  · simp [magnitudeHistogram]
  · intro i hi
    unfold magnitudeHistogram
    rw [getD_map_range _ (by omega : i < 20)]
    apply congrArg List.length
    apply List.filter_congr
    intro m _
    exact decide_eq_decide.mpr (binIdx_eq_iff_lt19 hi m)
  · unfold magnitudeHistogram
    rw [getD_map_range _ (by omega : 19 < 20)]
    apply congrArg List.length
    apply List.filter_congr
    intro m _
    exact decide_eq_decide.mpr (binIdx_eq19_iff m)
  · unfold magnitudeHistogram
    exact histogram_sum (magsOf snapshot)

/-- C5 (witness): the histogram properties at a one-event snapshot of
magnitude 1, bin 2, and the out-of-domain magnitude `-1`. -/
theorem magnitudeHistogram_spec_witness :
    (magnitudeHistogram [mkEvent "a" (some 1) none 0]).length = 20
    ∧ (magnitudeHistogram [mkEvent "a" (some 1) none 0]).getD 2 0
        = ((magsOf [mkEvent "a" (some 1) none 0]).filter
            fun m => (2 : ℚ) / 2 ≤ m ∧ m < ((2 : ℚ) + 1) / 2).length
    ∧ binIdx (-1) = none :=
  ⟨(magnitudeHistogram_spec [mkEvent "a" (some 1) none 0]).1,
   (magnitudeHistogram_spec [mkEvent "a" (some 1) none 0]).2.1 2 (by omega),
   (magnitudeHistogram_spec [mkEvent "a" (some 1) none 0]).2.2.2.2 (-1)
     (Or.inl (by norm_num))⟩

/-- `cntIn` over a cons cell. -/
theorem cntIn_cons (q : Int × Nat) (l : List (Int × Nat)) (k : Int) :
    cntIn (q :: l) k = (if q.1 = k then q.2 else 0) + cntIn l k := by
  simp [cntIn]

/-- `bump k` adds exactly one to the count stored under `k` and leaves
every other key's count unchanged. -/
theorem cntIn_bump (k k' : Int) (l : List (Int × Nat)) :
    cntIn (bump k l) k' = cntIn l k' + if k' = k then 1 else 0 := by
  induction l with
  | nil =>
    by_cases h : k' = k
    · subst h
      simp [bump, cntIn]
    · have h2 : ¬ (k = k') := fun hh => h hh.symm
      simp [bump, cntIn, h, h2]
  | cons q l ih =>
    simp only [bump]
    by_cases h : q.1 = k
    · rw [if_pos h, cntIn_cons, cntIn_cons]
      by_cases h2 : q.1 = k'
      · have hk : k' = k := h2.symm.trans h
        rw [if_pos h2, if_pos h2, if_pos hk]
        omega
      · have hk : ¬ (k' = k) := fun hh => h2 (h.trans hh.symm)
        rw [if_neg h2, if_neg h2, if_neg hk]
        omega
    · rw [if_neg h, cntIn_cons, cntIn_cons, ih]
      omega

/-- Keys after a `bump`: the old keys plus (possibly) the bumped key. -/
theorem mem_keys_bump (k k' : Int) (l : List (Int × Nat)) :
    k' ∈ (bump k l).map Prod.fst ↔ (k' ∈ l.map Prod.fst ∨ k' = k) := by
  induction l with
  | nil => simp [bump]
  | cons q l ih =>
    simp only [bump]
    by_cases h : q.1 = k
    · subst h
      rw [if_pos rfl]
      simp only [List.map_cons, List.mem_cons]
      tauto
    · rw [if_neg h]
      simp only [List.map_cons, List.mem_cons, ih]
      tauto

/-- `bump` preserves distinctness of the keys. -/
theorem nodup_keys_bump (k : Int) (l : List (Int × Nat))
    (h : (l.map Prod.fst).Nodup) : ((bump k l).map Prod.fst).Nodup := by
  induction l with
  | nil => simp [bump]
  | cons q l ih =>
    simp only [bump]
    rw [List.map_cons, List.nodup_cons] at h
    by_cases hq : q.1 = k
    · rw [if_pos hq]
      simp only [List.map_cons, List.nodup_cons]
      exact ⟨h.1, h.2⟩
    · rw [if_neg hq]
      simp only [List.map_cons, List.nodup_cons]
      refine ⟨?_, ih h.2⟩
      rw [mem_keys_bump]
      rintro (hc | hc)
      · exact h.1 hc
      · exact hq hc

/-- A key absent from an association list stores count 0. -/
theorem cntIn_eq_zero_of_not_mem (l : List (Int × Nat)) (k : Int)
    (h : k ∉ l.map Prod.fst) : cntIn l k = 0 := by
  induction l with
  | nil => rfl
  | cons q l ih =>
    rw [cntIn_cons]
    have h1 : ¬ q.1 = k := fun hh => h (by
      rw [List.map_cons]
      exact List.mem_cons.mpr (Or.inl hh.symm))
    have h2 : k ∉ l.map Prod.fst := fun hc => h (by
      rw [List.map_cons]
      exact List.mem_cons.mpr (Or.inr hc))
    rw [if_neg h1, ih h2]

/-- With distinct keys, each stored entry's count is exactly `cntIn` at
its key. -/
theorem entry_eq_cntIn (l : List (Int × Nat))
    (h : (l.map Prod.fst).Nodup) : ∀ p ∈ l, p.2 = cntIn l p.1 := by
  induction l with
  | nil => intro p hp; exact absurd hp (List.not_mem_nil p)
  | cons q l ih =>
    intro p hp
    rw [List.map_cons, List.nodup_cons] at h
    rcases List.mem_cons.mp hp with rfl | hp
    · rw [cntIn_cons, if_pos rfl, cntIn_eq_zero_of_not_mem l p.1 h.1]
      omega
    · have hne : q.1 ≠ p.1 := fun hc => h.1 (hc ▸ List.mem_map_of_mem Prod.fst hp)
      rw [cntIn_cons, if_neg hne]
      have := ih h.2 p hp
      omega

/-- The `forEach` fold of `getTimeDistribution`: the count stored under
`k` grows by the number of events whose `hoursAgo` is `k`. -/
theorem cntIn_hourBuckets_fold (now : Int) (s : List SeismicEvent) :
    ∀ acc k, cntIn (s.foldl (fun a e => bump (hoursAgo now e) a) acc) k
      = cntIn acc k + (s.filter fun e => hoursAgo now e = k).length := by
  induction s with
  | nil => intro acc k; simp
  | cons e s ih =>
    intro acc k
    rw [List.foldl_cons, ih, cntIn_bump]
    by_cases h : hoursAgo now e = k
    · rw [filter_len_cons_pos (fun x => decide (hoursAgo now x = k)) e s
        (decide_eq_true h), if_pos h.symm]
      omega
    · rw [filter_len_cons_neg (fun x => decide (hoursAgo now x = k)) e s
        (decide_eq_false h), if_neg (fun hh => h hh.symm)]
      omega

/-- The keys of the fold are the keys of the accumulator together with the
`hoursAgo` values present in the data. -/
theorem mem_keys_hourBuckets_fold (now : Int) (s : List SeismicEvent) :
    ∀ acc k, (k ∈ (s.foldl (fun a e => bump (hoursAgo now e) a) acc).map Prod.fst)
      ↔ (k ∈ acc.map Prod.fst ∨ ∃ e ∈ s, hoursAgo now e = k) := by
  induction s with
  | nil => intro acc k; simp
  | cons e s ih =>
    intro acc k
    rw [List.foldl_cons, ih, mem_keys_bump]
    constructor
    · rintro ((h | h) | h)
      · exact Or.inl h
      · exact Or.inr ⟨e, List.mem_cons_self e s, h.symm⟩
      · obtain ⟨x, hx, hk⟩ := h
        exact Or.inr ⟨x, List.mem_cons_of_mem e hx, hk⟩
    · rintro (h | ⟨x, hx, hk⟩)
      · exact Or.inl (Or.inl h)
      · rcases List.mem_cons.mp hx with rfl | hx
        · exact Or.inl (Or.inr hk.symm)
        · exact Or.inr ⟨x, hx, hk⟩

/-- The fold preserves distinctness of keys. -/
theorem nodup_keys_hourBuckets_fold (now : Int) (s : List SeismicEvent) :
    ∀ acc, ((acc : List (Int × Nat)).map Prod.fst).Nodup →
      ((s.foldl (fun a e => bump (hoursAgo now e) a) acc).map Prod.fst).Nodup := by
  induction s with
  | nil => intro acc h; exact h
  | cons e s ih =>
    intro acc h
    rw [List.foldl_cons]
    exact ih _ (nodup_keys_bump _ _ h)

/-- C7: `getTimeDistribution` is the ascending-by-`hoursAgo` sort of the
hour buckets truncated to its first 24 entries; the full sorted bucket
list has one entry per distinct `hoursAgo = ⌊(now - timeMs) / 1h⌋` value
present in the data, each entry's count being the number of events with
that `hoursAgo`, and the truncated result is itself sorted ascending. -/
theorem hourlyActivity_spec (snapshot : List SeismicEvent) (now : Int) :
    getTimeDistribution snapshot now = (sortByHours (hourBuckets now snapshot)).take 24
    ∧ (sortByHours (hourBuckets now snapshot)).Sorted (fun p q => p.1 ≤ q.1)
    ∧ ((sortByHours (hourBuckets now snapshot)).map Prod.fst).Nodup
    ∧ (∀ k : Int, k ∈ (sortByHours (hourBuckets now snapshot)).map Prod.fst
        ↔ ∃ e ∈ snapshot, hoursAgo now e = k)
    ∧ (∀ p ∈ sortByHours (hourBuckets now snapshot),
        p.2 = (snapshot.filter fun e => hoursAgo now e = p.1).length)
    ∧ (getTimeDistribution snapshot now).Sorted (fun p q => p.1 ≤ q.1) := by
  have hperm : (sortByHours (hourBuckets now snapshot)).Perm (hourBuckets now snapshot) :=
    List.perm_insertionSort _ _
  have hnodup : ((hourBuckets now snapshot).map Prod.fst).Nodup :=
    nodup_keys_hourBuckets_fold now snapshot [] (by simp)
  have hnodup2 : ((sortByHours (hourBuckets now snapshot)).map Prod.fst).Nodup :=
    ((hperm.map Prod.fst).nodup_iff).mpr hnodup
  have hsorted : (sortByHours (hourBuckets now snapshot)).Sorted (fun p q => p.1 ≤ q.1) :=
    List.sorted_insertionSort _ _
  have htake : getTimeDistribution snapshot now
      = (sortByHours (hourBuckets now snapshot)).take 24 := by
    unfold getTimeDistribution
    by_cases hs : snapshot.length = 0
    · rw [if_pos hs, List.length_eq_zero.mp hs]
      rfl
    · rw [if_neg hs]
  refine ⟨htake, hsorted, hnodup2, ?_, ?_, ?_⟩
  · intro k
    rw [List.Perm.mem_iff (hperm.map Prod.fst)]
    unfold hourBuckets
    rw [mem_keys_hourBuckets_fold now snapshot [] k]
    simp
  · intro p hp
    have hp2 : p ∈ hourBuckets now snapshot := hperm.mem_iff.mp hp
    rw [entry_eq_cntIn _ hnodup p hp2]
    show cntIn (hourBuckets now snapshot) p.1 = _
    unfold hourBuckets
    rw [cntIn_hourBuckets_fold now snapshot [] p.1]
    simp [cntIn]
  · rw [htake]
    exact List.Pairwise.sublist (List.take_sublist 24 _) hsorted

/-- C7 (witness): the truncation identity, key membership, and the entry
count at a concrete one-event snapshot. -/
theorem hourlyActivity_spec_witness :
    getTimeDistribution [mkEvent "a" none none 0] 0
      = (sortByHours (hourBuckets 0 [mkEvent "a" none none 0])).take 24
    ∧ ((0 : Int) ∈ (sortByHours (hourBuckets 0 [mkEvent "a" none none 0])).map Prod.fst)
    ∧ (((0, 1) : Int × Nat)).2
        = (([mkEvent "a" none none 0]).filter
            fun e => hoursAgo 0 e = (((0, 1) : Int × Nat)).1).length :=
  ⟨(hourlyActivity_spec [mkEvent "a" none none 0] 0).1,
   ((hourlyActivity_spec [mkEvent "a" none none 0] 0).2.2.2.1 0).mpr
     ⟨mkEvent "a" none none 0, by simp, by decide⟩,
   (hourlyActivity_spec [mkEvent "a" none none 0] 0).2.2.2.2.1 (0, 1) (by decide)⟩

end Earthquake
